import Mathlib

/-!
A verification development for the provider-data enrichment pipeline
(`agents/data_validation_agent.py`, `agents/enrichment_agent.py`,
`agents/quality_assurance_agent.py`).  The pipeline's JSON records are
embedded as a Python-style value type, the agents' decision logic as
executable functions over it, and numeric confidence scores as rationals.
-/

namespace EYPipeline

/-- Python-style JSON values as stored in the pipeline's JSON stores.
The constructor `none` models Python `None`. -/
inductive PyVal where
  | none : PyVal
  | str : String → PyVal
  | num : ℚ → PyVal
  | bool : Bool → PyVal
  | list : List PyVal → PyVal
  | dict : List (String × PyVal) → PyVal

/-- Python truthiness: `None`, `""`, `0`, `False`, `[]` and `{}` are falsy. -/
def pyTruthy : PyVal → Bool
  | .none => false
  | .str s => !s.isEmpty
  | .num q => q != 0
  | .bool b => b
  | .list xs => !xs.isEmpty
  | .dict es => !es.isEmpty

/-- First binding of a key in a Python dict (insertion-ordered association list). -/
def dictLookup : List (String × PyVal) → String → Option PyVal
  | [], _ => Option.none
  | (k, v) :: rest, key => if k = key then some v else dictLookup rest key

/-- Python `d.get(key, default)`.  Defined only when the receiver is a dict;
calling `.get` on anything else raises `AttributeError`, modelled as
`Option.none` at the call site. -/
def pyGet (v : PyVal) (key : String) (dflt : PyVal) : Option PyVal :=
  match v with
  | .dict es => some ((dictLookup es key).getD dflt)
  | _ => Option.none

/-- Python `float(x)` on the value kinds the pipeline's stores contain
(numbers and booleans).  Anything else is modelled as a conversion failure;
in particular numeric strings are not modelled, since the stores written by
the agents always hold numbers at the converted positions. -/
def pyFloat : PyVal → Option ℚ
  | .num q => some q
  | .bool b => some (if b then 1 else 0)
  | _ => Option.none

/-- Python `s.upper()` on a string (ASCII case mapping, character by
character). -/
def pyStrUpper (s : String) : String := ⟨s.data.map Char.toUpper⟩

/-- Python `s.lower()` on a string (ASCII case mapping, character by
character). -/
def pyStrLower (s : String) : String := ⟨s.data.map Char.toLower⟩

/-- Python `x.upper()`: defined on strings only. -/
def pyUpperStr : PyVal → Option String
  | .str s => some (pyStrUpper s)
  | _ => Option.none

/-- Python `x.lower()`: defined on strings only. -/
def pyLowerStr : PyVal → Option String
  | .str s => some (pyStrLower s)
  | _ => Option.none

/-- Python `v == s` for a string literal `s`: true exactly when `v` is the
equal string (no cross-type equalities involve a string). -/
def pyEqStr (v : PyVal) (s : String) : Bool :=
  match v with
  | .str t => t = s
  | _ => false

/-- Python `xs[0]` on a list; empty list or non-list raises, modelled as
`Option.none`. -/
def pyIndex0 : PyVal → Option PyVal
  | .list (x :: _) => some x
  | _ => Option.none

/-- Whether the first character list is an initial segment of the second. -/
def charsStartWith : List Char → List Char → Bool
  | [], _ => true
  | _ :: _, [] => false
  | a :: as, b :: bs => a == b && charsStartWith as bs

/-- Whether the first character list occurs contiguously inside the second. -/
def charsContain : List Char → List Char → Bool
  | needle, [] => needle.isEmpty
  | needle, c :: rest => charsStartWith needle (c :: rest) || charsContain needle rest

/-- Python `needle in hay` for strings: substring containment. -/
def pyInStr (needle hay : String) : Bool :=
  charsContain needle.toList hay.toList

/-! ## QA agent (`agents/quality_assurance_agent.py`)

`QualityAssuranceAgent.classify` reads an enriched record and produces a
final status.  The record accesses are faithful to the source: the upstream
record is looked up under the key `"base_validation"` and the external
signals under the key `"enriched"`. -/

/-- `QualityAssuranceAgent.VERIFY_THRESHOLD`. -/
def VERIFY_THRESHOLD : ℚ := 0.80

/-- `QualityAssuranceAgent.REVIEW_THRESHOLD`. -/
def REVIEW_THRESHOLD : ℚ := 0.45

/-- `classify`: `base = enriched.get("base_validation", {})`. -/
def qaBase (enriched : PyVal) : Option PyVal :=
  pyGet enriched "base_validation" (.dict [])

/-- `classify`: `norm = base.get("normalized", {})`. -/
def qaNorm (enriched : PyVal) : Option PyVal :=
  qaBase enriched >>= fun base => pyGet base "normalized" (.dict [])

/-- `classify`: `norm.get("license_status", "").upper()`. -/
def qaLicenseUpper (enriched : PyVal) : Option String :=
  (qaNorm enriched >>= fun norm => pyGet norm "license_status" (.str "")) >>= pyUpperStr

/-- `classify`: `norm.get("registration_number")`. -/
def qaRegistration (enriched : PyVal) : Option PyVal :=
  qaNorm enriched >>= fun norm => pyGet norm "registration_number" .none

/-- `classify`: `base.get("validation_status", "UNKNOWN")`. -/
def qaValidationStatus (enriched : PyVal) : Option PyVal :=
  qaBase enriched >>= fun base => pyGet base "validation_status" (.str "UNKNOWN")

/-- `classify`: `float(enriched.get("combined_confidence", 0.0))`. -/
def qaCombined (enriched : PyVal) : Option ℚ :=
  pyGet enriched "combined_confidence" (.num 0) >>= pyFloat

/-- The signal-consistency block of `classify`: whether the issue
`"address_mismatch_npi_maps"` is appended.  The inner address extraction is
wrapped in `try`/`except` in the source (failure leaves `addr_npi = ""`),
hence the `getD`; the `.lower()` calls sit outside that `try`. -/
def qaAddrMismatch (enriched : PyVal) : Option Bool := do
  let enr ← pyGet enriched "enriched" (.dict [])
  let npi ← pyGet enr "npi" .none
  let maps ← pyGet enr "maps" .none
  if pyTruthy npi && pyTruthy maps then
    let addrNpi : PyVal :=
      ((pyGet npi "addresses" (.list [.dict []]) >>= pyIndex0) >>=
        fun first => pyGet first "address_1" (.str "")).getD (.str "")
    let addrMaps ← pyGet maps "formatted_address" (.str "")
    if pyTruthy addrNpi && pyTruthy addrMaps then do
      let aN ← pyLowerStr addrNpi
      let aM ← pyLowerStr addrMaps
      pure (!pyInStr (aN.take 10) aM)
    else
      pure false
  else
    pure false

/-- The issue list accumulated by `classify`, in the source's append order:
`license_not_active`, `missing_license_number`, `address_mismatch_npi_maps`. -/
def qaIssues (enriched : PyVal) : Option (List String) := do
  let lic ← qaLicenseUpper enriched
  let issues0 : List String :=
    if lic ≠ "ACTIVE" ∧ lic ≠ "" then ["license_not_active"] else []
  let reg ← qaRegistration enriched
  let issues1 := issues0 ++ (if pyTruthy reg then [] else ["missing_license_number"])
  let mismatch ← qaAddrMismatch enriched
  pure (issues1 ++ (if mismatch then ["address_mismatch_npi_maps"] else []))

/-- The result record built by `QualityAssuranceAgent.classify`
(the wall-clock `qa_timestamp_utc` field is omitted from the model). -/
structure QAResult where
  provider_id : PyVal
  combined_confidence : ℚ
  final_status : String
  issues : List String
  validation_status : PyVal
  confidence_bucket : String

/-- `QualityAssuranceAgent.classify`.  `Option.none` models an uncaught
Python exception (e.g. a malformed record whose sub-objects are not dicts). -/
def classify (enriched : PyVal) : Option QAResult := do
  let combined ← qaCombined enriched
  let validationStatus ← qaValidationStatus enriched
  let issues ← qaIssues enriched
  let finalStatus :=
    if issues ≠ [] then "FAIL_QA"
    else if VERIFY_THRESHOLD ≤ combined ∧ pyEqStr validationStatus "PASS" = true then "VERIFIED"
    else if REVIEW_THRESHOLD ≤ combined then "NEEDS_REVIEW"
    else "REJECTED"
  let bucket :=
    if (0.8 : ℚ) ≤ combined then "HIGH"
    else if (0.45 : ℚ) ≤ combined then "MEDIUM"
    else "LOW"
  let pid ← pyGet enriched "provider_id" .none
  pure { provider_id := pid
         combined_confidence := combined
         final_status := finalStatus
         issues := issues
         validation_status := validationStatus
         confidence_bucket := bucket }

/-- The three hard-fail conditions of `classify`, in terms of the uppercased
license status, the registration value and the address-mismatch flag. -/
def qaHardFailCond (lic : String) (reg : PyVal) (mismatch : Bool) : Prop :=
  (lic ≠ "ACTIVE" ∧ lic ≠ "") ∨ pyTruthy reg = false ∨ mismatch = true

instance (lic : String) (reg : PyVal) (mismatch : Bool) :
    Decidable (qaHardFailCond lic reg mismatch) := by
  unfold qaHardFailCond; infer_instance

/-- A concrete enriched record: license status EXPIRED, upstream status PASS,
combined confidence 0.99. -/
def qaHardFailExample : PyVal := .dict [
  ("combined_confidence", .num 0.99),
  ("base_validation", .dict [
    ("validation_status", .str "PASS"),
    ("normalized", .dict [
      ("license_status", .str "EXPIRED"),
      ("registration_number", .str "ABC-123")])])]

/-! ## Enrichment agent (`agents/enrichment_agent.py`)

`Enricher.enrich_provider` builds the enriched record from the validated
record and the three external-service results.  The external services
themselves are collaborators: their returned payloads (and the website
scraper's loop outcome, a result/score pair) enter the model as parameters. -/

/-- Python `round(x, 3)` uses round-half-to-even; modelled exactly on
rationals (the binary floating-point representation is idealized away). -/
def roundHalfEven (x : ℚ) : ℤ :=
  if x - ⌊x⌋ < 1/2 then ⌊x⌋
  else if 1/2 < x - ⌊x⌋ then ⌊x⌋ + 1
  else if ⌊x⌋ % 2 = 0 then ⌊x⌋ else ⌊x⌋ + 1

/-- Python `round(q, 3)`. -/
def pyRound3 (q : ℚ) : ℚ := (roundHalfEven (q * 1000) : ℚ) / 1000

/-- Python `a or b`: the first operand if truthy, else the second. -/
def pyOr (a b : PyVal) : PyVal := if pyTruthy a then a else b

/-- The string content of a value, when it is a string. -/
def pyStrOfVal : PyVal → Option String
  | .str s => some s
  | _ => Option.none

/-- The string contents of a list of values, when all of them are strings. -/
def strListOf : List PyVal → Option (List String)
  | [] => some []
  | v :: rest => do
      let s ← pyStrOfVal v
      let tail ← strListOf rest
      pure (s :: tail)

/-- Python `",".join(x)` for a list of strings or a string; anything else
raises (`Option.none`). -/
def pyJoinComma : PyVal → Option String
  | .list xs => (strListOf xs).map (fun parts => String.intercalate "," parts)
  | .str s => some (String.intercalate "," (s.data.map (fun c => String.mk [c])))
  | _ => Option.none

/-- `float(res.get(key) or 0.0) if isinstance(res, dict) else 0.0`, with the
surrounding `try`/`except` that degrades any conversion failure to `0.0`
(used for the NPI `match_confidence` and the maps `match_score`). -/
def pyMatchScore (res : PyVal) (key : String) : ℚ :=
  match res with
  | .dict es =>
      let v := (dictLookup es key).getD .none
      (pyFloat (if pyTruthy v then v else .num 0)).getD 0
  | _ => 0

/-- The combined-confidence computation of `enrich_provider`:
`round(min(1.0, w_n*npi + w_m*maps + w_s*scraper), 3)`.  Note the `min`
clamps only from above. -/
def enrichCombined (npiResult mapsResult : PyVal) (scraperScore wN wM wS : ℚ) : ℚ :=
  pyRound3 (min 1 (wN * pyMatchScore npiResult "match_confidence"
    + wM * pyMatchScore mapsResult "match_score" + wS * scraperScore))

/-- Python `x or {}`. -/
def orDict (v : PyVal) : PyVal := if pyTruthy v then v else .dict []

/-- `provider_name = norm.get("name") or
(validated_record.get("normalized") or \x7b\x7d).get("name") or None`. -/
def enrichProviderName (vr norm : PyVal) : Option PyVal := do
  let n1 ← pyGet norm "name" .none
  let normB ← pyGet vr "normalized" .none
  let n2 ← pyGet (orDict normB) "name" .none
  pure (pyOr n1 (pyOr n2 .none))

/-- `specialization = ",".join(validated_record.get("normalized",
\x7b\x7d).get("specializations") or []) or None`. -/
def enrichSpecialization (vr : PyVal) : Option PyVal := do
  let normC ← pyGet vr "normalized" (.dict [])
  let specsV ← pyGet normC "specializations" .none
  let specJoined ← pyJoinComma (if pyTruthy specsV then specsV else .list [])
  pure (if specJoined.isEmpty then .none else .str specJoined)

/-- `maps_signals["place_found"] = bool(maps_result and
maps_result.get("match_score"))` — evaluated outside the `try` block. -/
def enrichPlaceFound (mapsResult : PyVal) : Option Bool :=
  if pyTruthy mapsResult then (pyGet mapsResult "match_score" .none).map pyTruthy
  else some false

/-- `canonical["name"]`. -/
def canonicalNameOf (vr providerName : PyVal) : Option PyVal := do
  let normD ← pyGet vr "normalized" .none
  let cnameB ← pyGet (orDict normD) "name" .none
  pure (pyOr providerName (pyOr cnameB (.str "")))

/-- `canonical["phone"]`. -/
def canonicalPhoneOf (norm mapsD doctor : PyVal) : Option PyVal := do
  let phoneV ← pyGet norm "phone" .none
  let gphone ← pyGet mapsD "google_phone" .none
  let dphones ← pyGet doctor "doctor_phones" (.list [])
  pure (pyOr phoneV (pyOr gphone dphones))

/-- `canonical["email"]`. -/
def canonicalEmailOf (vr doctor : PyVal) : Option PyVal := do
  let normE ← pyGet vr "normalized" .none
  let cemail ← pyGet (orDict normE) "email" .none
  let demails ← pyGet doctor "doctor_emails" (.list [])
  pure (pyOr cemail demails)

/-- `canonical["address"]`. -/
def canonicalAddressOf (norm mapsD scrD : PyVal) : Option PyVal := do
  let addrV ← pyGet norm "address" .none
  let gaddr ← pyGet mapsD "google_formatted_address" .none
  let hospital ← pyGet scrD "hospital" (.dict [])
  let haddrs ← pyGet hospital "addresses" (.list [])
  pure (pyOr addrV (pyOr gaddr haddrs))

/-- `canonical["npi"] = (npi_result or \x7b\x7d).get("npi") if
isinstance(npi_result, dict) else None`. -/
def canonicalNpiOf (npiResult : PyVal) : PyVal :=
  match npiResult with
  | .dict es => (dictLookup es "npi").getD .none
  | _ => .none

/-- `status` attached at the end of `enrich_provider` (thresholds 0.85/0.5,
compared against the rounded combined confidence). -/
def enrichStatus (combinedConfidence : ℚ) : String :=
  if (0.85 : ℚ) ≤ combinedConfidence then "VERIFIED"
  else if (0.5 : ℚ) ≤ combinedConfidence then "REVIEW"
  else "PENDING"

/-- The output record of `enrich_provider`, with its keys in the source's
insertion order. -/
def enrichRecord (pid ts : String) (vr npiResult mapsResult scraperResult : PyVal)
    (placeFound : Bool) (combinedConfidence npiScore mapsScore scraperScore : ℚ)
    (canonical : PyVal) : PyVal :=
  .dict [
    ("provider_id", .str pid),
    ("timestamp_utc", .str ts),
    ("validated_record", vr),
    ("npi", npiResult),
    ("npi_signals", .dict [("has_npi_result", .bool (pyTruthy npiResult))]),
    ("maps", mapsResult),
    ("maps_signals", .dict [("place_found", .bool placeFound)]),
    ("scraper", scraperResult),
    ("scraper_signals", .dict [("scrape_found", .bool (pyTruthy scraperResult))]),
    ("combined_confidence", .num combinedConfidence),
    ("component_confidences", .dict [
      ("npi", .num (pyRound3 npiScore)),
      ("maps", .num (pyRound3 mapsScore)),
      ("scraper", .num (pyRound3 scraperScore))]),
    ("canonical", canonical),
    ("status", .str (enrichStatus combinedConfidence))]

/-- `Enricher.enrich_provider`.  Parameters: provider id, timestamp string,
the validated record, the three collaborator results (`PyVal.none` when a
service is disabled, failed or found nothing) and the scraper loop's score.
Weights default to `{"npi": 0.4, "maps": 0.35, "scraper": 0.25}` in the
source; they are parameters here.  `Option.none` models an uncaught
exception (e.g. a truthy non-dict validated record). -/
def enrichProvider (pid ts : String) (validatedRecordIn : PyVal)
    (npiResult mapsResult scraperResult : PyVal) (scraperScore : ℚ)
    (wN wM wS : ℚ) : Option PyVal := do
  let vr := if pyTruthy validatedRecordIn then validatedRecordIn else .dict []
  let norm0 ← pyGet vr "normalized" (.dict [])
  let norm := if pyTruthy norm0 then norm0 else .dict []
  let src0 ← pyGet vr "source" (.dict [])
  let _src := orDict src0
  let providerName ← enrichProviderName vr norm
  let _specialization ← enrichSpecialization vr
  let addrV ← pyGet norm "address" .none
  let _address := pyOr addrV .none
  let phoneV ← pyGet norm "phone" .none
  let _phone := pyOr phoneV .none
  let placeFound ← enrichPlaceFound mapsResult
  let doctor ← pyGet (orDict scraperResult) "doctor" (.dict [])
  let cname ← canonicalNameOf vr providerName
  let cphone ← canonicalPhoneOf norm (orDict mapsResult) doctor
  let cemail ← canonicalEmailOf vr doctor
  let caddr ← canonicalAddressOf norm (orDict mapsResult) (orDict scraperResult)
  pure (enrichRecord pid ts vr npiResult mapsResult scraperResult placeFound
    (enrichCombined npiResult mapsResult scraperScore wN wM wS)
    (pyMatchScore npiResult "match_confidence")
    (pyMatchScore mapsResult "match_score") scraperScore
    (.dict [
      ("name", cname),
      ("phone", cphone),
      ("email", cemail),
      ("address", caddr),
      ("npi", canonicalNpiOf npiResult)]))

/-! ## Data validation agent (`agents/data_validation_agent.py`) -/

/-- Python `str.strip()` whitespace test (idealized to Unicode/ASCII
whitespace as recognized by `Char.isWhitespace`). -/
def pyIsSpace (c : Char) : Bool := c.isWhitespace

/-- Strip leading and trailing whitespace from a character list. -/
def stripChars (l : List Char) : List Char :=
  ((l.dropWhile pyIsSpace).reverse.dropWhile pyIsSpace).reverse

/-- Python `s.strip()`. -/
def pyStrip (s : String) : String := ⟨stripChars s.data⟩

/-- The digit characters of a string, in order (Python
`"".join(re.findall(r"\d+", s))`). -/
def digitChars (s : String) : String := ⟨s.data.filter Char.isDigit⟩

/-- `normalize_phone`: empty/None input gives `""`; otherwise strip, then
keep exactly the digit characters, with a single leading `+` prepended when
the stripped value contains a `+` anywhere (`if "+" in s`). -/
def normalizePhone (phone : String) : String :=
  if phone.isEmpty then ""
  else
    let s := pyStrip phone
    if s.data.contains '+' then "+" ++ digitChars s else digitChars s

/-- A submitted or extracted source payload: an insertion-ordered mapping
from field keys to string values, where a `Option.none` value models a JSON
`null` entry. -/
abbrev SrcMap := List (String × Option String)

/-- Presence-aware key lookup on a source payload (`key in d` + `d[key]`). -/
def srcLookup : SrcMap → String → Option (Option String)
  | [], _ => Option.none
  | (k, v) :: rest, key => if k = key then some v else srcLookup rest key

/-- Python `d.get(key)`: an absent key and a `None` value are
indistinguishable. -/
def srcGet (m : SrcMap) (key : String) : Option String :=
  (srcLookup m key).getD Option.none

/-- One step of Python `str.replace` restricted by an explicit fuel; the
fuel is always at least the text length at the top-level call, so the
fuel-exhaustion branch is unreachable there. -/
def replaceCharsFuel (pat rep : List Char) : Nat → List Char → List Char
  | _, [] => []
  | 0, l => l
  | Nat.succ fuel, c :: rest =>
      if pat ≠ [] ∧ charsStartWith pat (c :: rest) = true then
        rep ++ replaceCharsFuel pat rep fuel ((c :: rest).drop pat.length)
      else c :: replaceCharsFuel pat rep fuel rest

/-- Python `s.replace(pat, rep)` (every occurrence, left to right). -/
def pyReplace (s pat rep : String) : String :=
  ⟨replaceCharsFuel pat.data rep.data s.data.length s.data⟩

/-- The ordered alias key list probed for the extracted (PDF) source:
`[field_name, field_name.replace("clinic_", ""), "mobile", "contact",
"phone_number"]`. -/
def pdfKeys (fieldName : String) : List String :=
  [fieldName, pyReplace fieldName "clinic_" "", "mobile", "contact", "phone_number"]

/-- The inner `norm` helper of `_source_confidence_for_field`:
`None` stays `None`, anything else is `str(x).strip().lower()`. -/
def normLow : Option String → Option String
  | Option.none => Option.none
  | some s => some (pyStrLower (pyStrip s))

/-- Python truthiness of the `norm` result (`None` and `""` are falsy). -/
def truthyOS : Option String → Bool
  | some s => !s.isEmpty
  | _ => false

/-- `csv_val`: `csv_row.get(field_name)` guarded by `if csv_row:` (a missing
or empty payload yields `None`). -/
def csvValOf (fieldName : String) (csvRow : Option SrcMap) : Option String :=
  match csvRow with
  | some m => if !m.isEmpty then srcGet m fieldName else Option.none
  | _ => Option.none

/-- The alias-probing loop for the PDF payload: the first key that is
present with a value not in `(None, "", [])`. -/
def pdfProbeKeys (pdf : SrcMap) : List String → Option String
  | [] => Option.none
  | k :: rest =>
    match srcLookup pdf k with
    | some (some s) => if !s.isEmpty then some s else pdfProbeKeys pdf rest
    | _ => pdfProbeKeys pdf rest

/-- `pdf_val`: the probed extracted value, guarded by `if pdf_json:`. -/
def pdfValOf (fieldName : String) (pdfJson : Option SrcMap) : Option String :=
  match pdfJson with
  | some m => if !m.isEmpty then pdfProbeKeys m (pdfKeys fieldName) else Option.none
  | _ => Option.none

/-- `n_csv = norm(csv_val)`. -/
def nCsvOf (fieldName : String) (csvRow : Option SrcMap) : Option String :=
  normLow (csvValOf fieldName csvRow)

/-- `n_pdf = norm(pdf_val)`. -/
def nPdfOf (fieldName : String) (pdfJson : Option SrcMap) : Option String :=
  normLow (pdfValOf fieldName pdfJson)

/-- `n_norm = norm(normalized_value)`. -/
def nNormOf (normalizedValue : String) : Option String :=
  normLow (some normalizedValue)

/-- `DataValidationAgent._source_confidence_for_field`: the source-agreement
score for one field, from the submitted payload, the extracted payload and
the already-normalized value. -/
def sourceConfidenceForField (fieldName : String) (csvRow pdfJson : Option SrcMap)
    (normalizedValue : String) : ℚ :=
  let nCsv := nCsvOf fieldName csvRow
  let nPdf := nPdfOf fieldName pdfJson
  let nNorm := nNormOf normalizedValue
  if truthyOS nCsv = true ∧ truthyOS nPdf = true then
    if nCsv = nPdf then 0.95
    else if nCsv = nNorm ∨ nPdf = nNorm then 0.85
    else 0.40
  else if truthyOS nCsv = true ∧ truthyOS nPdf = false then
    if nCsv = nNorm then 0.88 else 0.80
  else if truthyOS nPdf = true ∧ truthyOS nCsv = false then
    if nPdf = nNorm then 0.75 else 0.60
  else 0.0

/-- `max(0.0, min(1.0, x))` — the per-field clamp of the combiner. -/
def clamp01 (q : ℚ) : ℚ := max 0 (min 1 q)

/-- The iteration order of `format_conf.keys()` in `DataValidationAgent.run`
(Python dicts preserve insertion order). -/
def validationFields : List String :=
  ["name", "phone", "email", "address", "registration", "qualifications",
   "experience_years", "specializations"]

/-- Output of the per-field combiner loop of `run` (lines building
`field_confidence`, `validation_flags` and `missing_fields`). -/
structure FieldCombine where
  field_confidence : List (String × ℚ)
  validation_flags : List (String × String)
  missing_fields : List String

/-- The per-field loop of `run`, over an arbitrary field list: the combined
score is `clamp01(w_source*src + w_format*fmt)` rounded to 3 digits; scores
below 0.5 are flagged, and a field joins `missing_fields` only inside that
branch, when both components are exactly 0. -/
def combineFieldsList (wSource wFormat : ℚ) (fmtConf srcConf : String → ℚ) :
    List String → FieldCombine
  | [] => ⟨[], [], []⟩
  | field :: rest =>
    let fmt := fmtConf field
    let src := srcConf field
    let score := clamp01 (wSource * src + wFormat * fmt)
    let tail := combineFieldsList wSource wFormat fmtConf srcConf rest
    { field_confidence := (field, pyRound3 score) :: tail.field_confidence
      validation_flags :=
        (if score < 0.5 then
          [(field, "low_confidence" ++ (if fmt = 0 then "|format_invalid" else "")
            ++ (if src = 0 then "|source_missing" else ""))]
         else []) ++ tail.validation_flags
      missing_fields :=
        (if score < 0.5 ∧ src = 0 ∧ fmt = 0 then [field] else []) ++ tail.missing_fields }

/-- The combiner loop over the record's actual field set. -/
def combineFields (wSource wFormat : ℚ) (fmtConf srcConf : String → ℚ) : FieldCombine :=
  combineFieldsList wSource wFormat fmtConf srcConf validationFields

/-- The fixed weight table of the overall aggregator in `run`. -/
def weightMap : List (String × ℚ) :=
  [("name", 0.25), ("phone", 0.2), ("email", 0.15), ("address", 0.2),
   ("registration", 0.1), ("qualifications", 0.05)]

/-- Lookup in a string-to-rational association list. -/
def ratLookup : List (String × ℚ) → String → Option ℚ
  | [], _ => Option.none
  | (k, v) :: rest, key => if k = key then some v else ratLookup rest key

/-- `field_confidence.get(k, 0.0)`. -/
def fieldConfGet (fc : List (String × ℚ)) (k : String) : ℚ :=
  (ratLookup fc k).getD 0

/-- `total_w = sum(weight_map.values())`. -/
def totalWeight : ℚ := (weightMap.map (fun p => p.2)).sum

/-- The overall-confidence aggregation of `run`:
`sum(field_confidence.get(k, 0.0) * w) / total_w if total_w > 0 else 0.0`. -/
def overallConfidence (fc : List (String × ℚ)) : ℚ :=
  let overall := (weightMap.map (fun p => fieldConfGet fc p.1 * p.2)).sum
  if 0 < totalWeight then overall / totalWeight else 0

/-! ### Facts about stripping, used to characterize `normalize_phone` -/

/-- The submitted and extracted payloads of the spec's Scenario A. -/
def scenarioACsv : Option SrcMap := some [("phone", some "9876543210")]

/-- The extracted payload of Scenario A (phone under the `mobile` alias). -/
def scenarioAPdf : Option SrcMap := some [("mobile", some "+91-9876543210")]

/-! ### Bounds for the clamp and the rounding -/

/-! ### The combiner loop and the overall aggregator -/

/-! ## Persisted store loading

`DataValidationAgent._load_existing` and the QA agent's `load_json` both
open a JSON store file inside `try`/`except`.  File content is modelled as
`Option String` (`Option.none` = file absent) and `json.load` as a parser
parameter returning `Option.none` where the library call raises. -/

/-- `load_json` (QA agent, also `_load_json` of the enrichment agent):
absent file or parse failure yields the empty mapping. -/
def loadJson (parse : String → Option PyVal) (content : Option String) : PyVal :=
  match content with
  | Option.none => .dict []
  | some text =>
    match parse text with
    | Option.none => .dict []
    | some v => v

/-- `DataValidationAgent._load_existing`: like `load_json` but additionally
`json.load(f) or {}` — a parsed falsy value also resets to the empty
mapping. -/
def loadExisting (parse : String → Option PyVal) (content : Option String) : PyVal :=
  match content with
  | Option.none => .dict []
  | some text =>
    match parse text with
    | Option.none => .dict []
    | some v => if pyTruthy v then v else .dict []

/-! ## License Validity Checker

Modelled from the spec: the License Validity Checker of §4.5 has no
implementation under the repository's agents — `QualityAssuranceAgent.classify`
only checks `license_status` and the registration number, and no code parses
an expiry date.  The state machine below follows the spec's words: absent
field → INCOMPLETE; status not ACTIVE (case-insensitive) → INVALID_STATUS;
expiry unparsable in the fixed "Month DD, YYYY" format, or strictly before
the current date → EXPIRED; else VALID. -/

/-- Modelled from the spec: the license sub-record
`{number, status, issue_date, expiry_date}`, each field optional. -/
structure LicenseRecord where
  registrationNumber : Option String
  status : Option String
  issueDate : Option String
  expiryDate : Option String

/-- Modelled from the spec: the checker's terminal states. -/
inductive LicenseState where
  | VALID
  | EXPIRED
  | INVALID_STATUS
  | INCOMPLETE
deriving DecidableEq

/-- A calendar date. -/
structure SimpleDate where
  year : Nat
  month : Nat
  day : Nat
deriving DecidableEq

/-- Strict calendar order. -/
def dateBefore (a b : SimpleDate) : Bool :=
  decide (a.year < b.year ∨ (a.year = b.year ∧
    (a.month < b.month ∨ (a.month = b.month ∧ a.day < b.day))))

/-- Full English month names, lowercase, as matched by a `%B` date field. -/
def monthNames : List String :=
  ["january", "february", "march", "april", "may", "june", "july",
   "august", "september", "october", "november", "december"]

/-- One-based index of a month name in a list (case handled by the caller). -/
def monthIndexFrom : List String → Nat → String → Option Nat
  | [], _, _ => Option.none
  | m :: rest, i, s => if m = s then some i else monthIndexFrom rest (i + 1) s

/-- Month-name lookup, case-insensitive as `strptime` is. -/
def monthIndex (s : String) : Option Nat :=
  monthIndexFrom monthNames 1 (pyStrLower s)

/-- A run of decimal digits as a number; anything else fails. -/
def parseDigits (s : String) : Option Nat :=
  if s.data ≠ [] ∧ s.data.all Char.isDigit then
    some (s.data.foldl (fun acc c => acc * 10 + (c.toNat - 48)) 0)
  else Option.none

/-- A `%d` day field: one or two digits. -/
def parseDay (s : String) : Option Nat :=
  if s.data.length = 1 ∨ s.data.length = 2 then parseDigits s else Option.none

/-- A `%Y` year field: one to four digits. -/
def parseYear (s : String) : Option Nat :=
  if 1 ≤ s.data.length ∧ s.data.length ≤ 4 then parseDigits s else Option.none

/-- Whether a year is a Gregorian leap year. -/
def isLeapYear (y : Nat) : Bool :=
  (y % 4 == 0 && y % 100 != 0) || y % 400 == 0

/-- Day count of a month. -/
def daysInMonth (m y : Nat) : Nat :=
  if m = 2 then (if isLeapYear y then 29 else 28)
  else if m = 4 ∨ m = 6 ∨ m = 9 ∨ m = 11 then 30
  else 31

/-- Modelled from the spec: parsing a date against the fixed textual format
"Month DD, YYYY" (full month name, day, comma, four-or-fewer-digit year),
validating the day against the month's length. -/
def parseLicenseDate (s : String) : Option SimpleDate :=
  let chars := s.data
  let monthCs := chars.takeWhile (fun c => c != ' ')
  let rest1 := chars.dropWhile (fun c => c != ' ')
  match rest1 with
  | ' ' :: rest2 =>
    let dayCs := rest2.takeWhile (fun c => c != ',')
    let rest3 := rest2.dropWhile (fun c => c != ',')
    match rest3 with
    | ',' :: ' ' :: yearCs => do
      let mi ← monthIndex ⟨monthCs⟩
      let dn ← parseDay ⟨dayCs⟩
      let yn ← parseYear ⟨yearCs⟩
      if 1 ≤ dn ∧ dn ≤ daysInMonth mi yn then some ⟨yn, mi, dn⟩ else Option.none
    | _ => Option.none
  | _ => Option.none

/-- Modelled from the spec: the License Validity Checker's transition rule,
evaluated in precedence order: INCOMPLETE, INVALID_STATUS, EXPIRED
(unparsable or past expiry), VALID. -/
def checkLicense (lic : LicenseRecord) (today : SimpleDate) : LicenseState :=
  match lic.registrationNumber, lic.status, lic.issueDate, lic.expiryDate with
  | some _, some st, some _, some ed =>
    if pyStrUpper st ≠ "ACTIVE" then .INVALID_STATUS
    else
      match parseLicenseDate ed with
      | Option.none => .EXPIRED
      | some d => if dateBefore d today then .EXPIRED else .VALID
  | _, _, _, _ => .INCOMPLETE

/-- A concrete license record: ACTIVE status, abbreviated expiry month
("Jan" instead of "January"), which the fixed format rejects. -/
def licenseUnparsableExpiry : LicenseRecord :=
  ⟨some "REG-1", some "ACTIVE", some "March 3, 2015", some "Jan 1, 2020"⟩

/-! ## Theorems -/

/-- Witness for C1: on `qaHardFailExample` the classifier returns `FAIL_QA`
and not `VERIFIED`, although the combined confidence is 0.99. -/
theorem classify_hard_fail_dominates (e : PyVal) (r : QAResult)
    (h : classify e = some r) :
    ∃ lic reg mismatch,
      qaLicenseUpper e = some lic ∧ qaRegistration e = some reg ∧
      qaAddrMismatch e = some mismatch ∧
      qaCombined e = some r.combined_confidence ∧
      qaValidationStatus e = some r.validation_status ∧
      (qaHardFailCond lic reg mismatch → r.final_status = "FAIL_QA") ∧
      (¬ qaHardFailCond lic reg mismatch →
        r.final_status =
          (if VERIFY_THRESHOLD ≤ r.combined_confidence ∧
              pyEqStr r.validation_status "PASS" = true then "VERIFIED"
           else if REVIEW_THRESHOLD ≤ r.combined_confidence then "NEEDS_REVIEW"
           else "REJECTED")) ∧
      ((lic ≠ "ACTIVE" ∧ lic ≠ "") → r.final_status ≠ "VERIFIED") := by
  simp only [classify, bind, Option.bind_eq_some, pure, Option.pure_def,
    Option.some.injEq] at h
  obtain ⟨c, hc, vs, hvs, iss, hiss, pid, hpid, hr⟩ := h
  simp only [qaIssues, bind, Option.bind_eq_some, pure, Option.pure_def,
    Option.some.injEq] at hiss
  obtain ⟨lic, hlic, reg, hreg, mm, hmm, hiss⟩ := hiss
  subst hiss
  refine ⟨lic, reg, mm, hlic, hreg, hmm, ?_, ?_, ?_, ?_, ?_⟩
  · rw [← hr]; exact hc
  · rw [← hr]; exact hvs
  · intro hfail
    rw [← hr]
    rcases hfail with hL | hR | hM
    · simp [hL]
    · simp [hR]
    · simp [hM]
  · intro hok
    unfold qaHardFailCond at hok
    have hL2 : ¬ (lic ≠ "ACTIVE" ∧ lic ≠ "") := fun hcontra => hok (Or.inl hcontra)
    have hR2 : pyTruthy reg = true := by
      rcases Bool.eq_false_or_eq_true (pyTruthy reg) with ht | hf
      · exact ht
      · exact absurd (Or.inr (Or.inl hf)) hok
    have hM2 : mm = false := by
      rcases Bool.eq_false_or_eq_true mm with ht | hf
      · exact absurd (Or.inr (Or.inr ht)) hok
      · exact hf
    rw [← hr]
    simp only [hR2, hM2]
    simp [hL2]
  · intro hL
    have hfail : qaHardFailCond lic reg mm := Or.inl hL
    have hfq : r.final_status = "FAIL_QA" := by
      rw [← hr]
      rcases hfail with hL | hR | hM
      · simp [hL]
      · simp [hR]
      · simp [hM]
    rw [hfq]
    decide

/-- Witness for C10: a parser that rejects everything (as `json.load` does
on corrupt text) makes both loaders return the empty store. -/
theorem classify_hard_fail_dominates_witness :
    ∃ r, classify qaHardFailExample = some r ∧
      r.final_status = "FAIL_QA" ∧ r.final_status ≠ "VERIFIED" ∧
      r.combined_confidence = 0.99 := by
  have h : classify qaHardFailExample =
      some { provider_id := .none, combined_confidence := 0.99,
             final_status := "FAIL_QA", issues := ["license_not_active"],
             validation_status := .str "PASS", confidence_bucket := "HIGH" } := by
    have hup : pyStrUpper "EXPIRED" = "EXPIRED" := by decide
    have h1 : ((0.8 : ℚ) ≤ 0.99) := by norm_num
    simp [classify, qaCombined, qaValidationStatus, qaIssues, qaLicenseUpper,
      qaRegistration, qaAddrMismatch, qaBase, qaNorm, pyGet, dictLookup, pyFloat,
      pyUpperStr, hup, pyTruthy, pyEqStr, VERIFY_THRESHOLD, REVIEW_THRESHOLD,
      qaHardFailExample, Option.bind, h1]
    all_goals decide
  obtain ⟨lic, reg, mm, hlic, hreg, hmm, hcomb, hvs, hFail, hCasc, hNV⟩ :=
    classify_hard_fail_dominates qaHardFailExample _ h
  have hlicv : qaLicenseUpper qaHardFailExample = some "EXPIRED" := by
    have hup : pyStrUpper "EXPIRED" = "EXPIRED" := by decide
    simp [qaLicenseUpper, qaNorm, qaBase, pyGet, dictLookup, pyUpperStr, hup,
      qaHardFailExample, Option.bind]
  rw [hlicv] at hlic
  have hlic2 : "EXPIRED" = lic := Option.some.inj hlic
  subst hlic2
  have hcond : qaHardFailCond "EXPIRED" reg mm :=
    Or.inl ⟨by decide, by decide⟩
  exact ⟨_, h, hFail hcond, by rw [hFail hcond]; decide, rfl⟩

/-- Helper: the QA classifier on any record shaped like the enricher's
output.  Such a record has no `"base_validation"` key and no `"enriched"`
key, so the classifier reads empty defaults, finds the registration number
missing, and hard-fails. -/
theorem classify_enrichRecord (pid ts : String) (vr npiR mapsR scrR : PyVal)
    (pf : Bool) (cc nS mS sS : ℚ) (canonical : PyVal) :
    classify (enrichRecord pid ts vr npiR mapsR scrR pf cc nS mS sS canonical) = some
      { provider_id := .str pid
        combined_confidence := cc
        final_status := "FAIL_QA"
        issues := ["missing_license_number"]
        validation_status := .str "UNKNOWN"
        confidence_bucket :=
          if (0.8 : ℚ) ≤ cc then "HIGH" else if (0.45 : ℚ) ≤ cc then "MEDIUM" else "LOW" } := by
  have h0 : pyStrUpper "" = "" := by decide
  simp [enrichRecord, classify, qaCombined, qaValidationStatus, qaIssues,
    qaLicenseUpper, qaRegistration, qaAddrMismatch, qaBase, qaNorm, pyGet,
    dictLookup, pyFloat, pyUpperStr, h0, pyTruthy, pyEqStr, Option.bind]

/-- C2: every record produced by `Enricher.enrich_provider` nests the
upstream record under `"validated_record"`, while `classify` looks for it
under `"base_validation"`; hence the registration number is always judged
missing, the issue `missing_license_number` is always raised, and the final
status is always `FAIL_QA` — `VERIFIED` and `NEEDS_REVIEW` are unreachable
through this pipeline. -/
theorem enrich_then_classify_always_fail_qa (pid ts : String)
    (vr npiR mapsR scrR : PyVal) (ss wN wM wS : ℚ) (out : PyVal)
    (h : enrichProvider pid ts vr npiR mapsR scrR ss wN wM wS = some out) :
    ∃ r, classify out = some r ∧ r.issues = ["missing_license_number"] ∧
      r.final_status = "FAIL_QA" ∧ r.final_status ≠ "VERIFIED" ∧
      r.final_status ≠ "NEEDS_REVIEW" := by
  simp only [enrichProvider, bind, Option.bind_eq_some, pure, Option.pure_def,
    Option.some.injEq] at h
  obtain ⟨x1, h1, x2, h2, x3, h3, x4, h4, x5, h5, x6, h6, x7, h7, x8, h8, x9, h9,
    x10, h10, x11, h11, x12, h12, hout⟩ := h
  subst hout
  have hcls := classify_enrichRecord pid ts (if pyTruthy vr then vr else PyVal.dict [])
    npiR mapsR scrR x7 (enrichCombined npiR mapsR ss wN wM wS)
    (pyMatchScore npiR "match_confidence") (pyMatchScore mapsR "match_score") ss
    (PyVal.dict [("name", x9), ("phone", x10), ("email", x11), ("address", x12),
      ("npi", canonicalNpiOf npiR)])
  have hne1 : ("FAIL_QA" : String) ≠ "VERIFIED" := by decide
  have hne2 : ("FAIL_QA" : String) ≠ "NEEDS_REVIEW" := by decide
  exact ⟨_, hcls, rfl, rfl, hne1, hne2⟩

/-- Witness for C2: a concrete run of the enricher (empty validated record,
no service results, default weights) whose output the QA agent fails. -/
theorem enrich_then_classify_always_fail_qa_witness :
    ∃ out r, enrichProvider "P1" "2025-01-01T00:00:00" (.dict []) .none .none .none 0
        0.4 0.35 0.25 = some out ∧
      classify out = some r ∧ r.final_status = "FAIL_QA" := by
  obtain ⟨out, hout⟩ : ∃ out,
      enrichProvider "P1" "2025-01-01T00:00:00" (.dict []) .none .none .none 0
        0.4 0.35 0.25 = some out := by
    simp [enrichProvider, orDict, enrichProviderName, enrichSpecialization,
      enrichPlaceFound, canonicalNameOf, canonicalPhoneOf, canonicalEmailOf,
      canonicalAddressOf, pyGet, dictLookup, pyTruthy, pyJoinComma, strListOf,
      pyOr, Option.bind]
  obtain ⟨r, hr, hiss, hfq, hnv, hnr⟩ :=
    enrich_then_classify_always_fail_qa "P1" "2025-01-01T00:00:00" (.dict [])
      .none .none .none 0 0.4 0.35 0.25 out hout
  exact ⟨out, r, hout, hr, hfq⟩

theorem filter_dropWhile_space (p : Char → Bool)
    (hp : ∀ c, pyIsSpace c = true → p c = false) :
    ∀ l : List Char, (l.dropWhile pyIsSpace).filter p = l.filter p := by
  intro l
  induction l with
  | nil => rfl
  | cons a l ih =>
    simp only [List.dropWhile_cons]
    by_cases hq : pyIsSpace a = true
    · simp only [hq, if_true, ih, List.filter_cons, hp a hq]
      simp
    · simp [hq]

theorem mem_dropWhile_space {c : Char} (hc : pyIsSpace c = false) :
    ∀ l : List Char, c ∈ l.dropWhile pyIsSpace ↔ c ∈ l := by
  intro l
  induction l with
  | nil => simp
  | cons a l ih =>
    simp only [List.dropWhile_cons]
    by_cases hq : pyIsSpace a = true
    · have hne : c ≠ a := by
        intro he
        rw [he, hq] at hc
        cases hc
      simp [hq, ih, hne]
    · simp [hq]

theorem filter_stripChars (p : Char → Bool)
    (hp : ∀ c, pyIsSpace c = true → p c = false) (l : List Char) :
    (stripChars l).filter p = l.filter p := by
  unfold stripChars
  rw [List.filter_reverse, filter_dropWhile_space p hp, List.filter_reverse,
    filter_dropWhile_space p hp, List.reverse_reverse]

theorem mem_stripChars {c : Char} (hc : pyIsSpace c = false) (l : List Char) :
    c ∈ stripChars l ↔ c ∈ l := by
  unfold stripChars
  rw [List.mem_reverse, mem_dropWhile_space hc, List.mem_reverse,
    mem_dropWhile_space hc]

theorem whitespace_not_digit : ∀ c, pyIsSpace c = true → c.isDigit = false := by
  intro c hc
  unfold pyIsSpace at hc
  unfold Char.isWhitespace at hc
  simp only [Bool.or_eq_true, decide_eq_true_eq] at hc
  rcases hc with ((h | h) | h) | h <;> (subst h; decide)

/-- C9 (amended): `normalize_phone` returns exactly the digit characters of
the input in order, prefixed by a single `+` precisely when the input
contains a `+` anywhere — not only when it has a leading `+`. -/
theorem normalizePhone_characterization (s : String) :
    normalizePhone s =
      (if s.data.contains '+' then "+" ++ digitChars s else digitChars s) := by
  unfold normalizePhone
  by_cases he : s.isEmpty = true
  · have hs : s = "" := by rw [String.isEmpty_iff] at he; exact he
    subst hs
    simp [digitChars]
    decide
  · simp only [he, Bool.false_eq_true, if_false]
    have hdata : (pyStrip s).data = stripChars s.data := rfl
    have hplus : pyIsSpace '+' = false := by decide
    have hcont : (pyStrip s).data.contains '+' = s.data.contains '+' := by
      rw [hdata]
      have hmem := mem_stripChars hplus s.data
      have hgen : ∀ l : List Char, l.contains '+' = decide ('+' ∈ l) := by
        intro l
        simp [List.contains_eq_any_beq, List.any_beq]
      rw [hgen, hgen]
      simp only [hmem]
  -- digit characters are unaffected by stripping whitespace
    have hdig : digitChars (pyStrip s) = digitChars s := by
      unfold digitChars
      rw [hdata, filter_stripChars Char.isDigit whitespace_not_digit]
    rw [hcont, hdig]

/-- Counterexample to C9 as stated: `"98+76543210"` has no leading `+`, yet
`normalize_phone` prepends one, because the source tests `"+" in s`
(containment anywhere), not a leading `+`. -/
theorem normalizePhone_leading_plus_counterexample :
    normalizePhone "98+76543210" = "+9876543210" ∧
      "98+76543210".data.head? ≠ some '+' := by
  constructor
  · decide
  · decide

/-- C5: the Source Agreement Estimator returns exactly 0.95 / 0.85 / 0.40 /
0.88 / 0.80 / 0.75 / 0.60 / 0.0 according to which sources are present
(after trim/lowercase normalization of the raw values, with the PDF source
probed through its alias key list) and which of them agree with each other
or with the normalized value. -/
theorem sourceConfidence_cases (field : String) (csv pdf : Option SrcMap) (nv : String) :
    (truthyOS (nCsvOf field csv) = true → truthyOS (nPdfOf field pdf) = true →
      nCsvOf field csv = nPdfOf field pdf →
      sourceConfidenceForField field csv pdf nv = 0.95)
  ∧ (truthyOS (nCsvOf field csv) = true → truthyOS (nPdfOf field pdf) = true →
      nCsvOf field csv ≠ nPdfOf field pdf →
      (nCsvOf field csv = nNormOf nv ∨ nPdfOf field pdf = nNormOf nv) →
      sourceConfidenceForField field csv pdf nv = 0.85)
  ∧ (truthyOS (nCsvOf field csv) = true → truthyOS (nPdfOf field pdf) = true →
      nCsvOf field csv ≠ nPdfOf field pdf →
      nCsvOf field csv ≠ nNormOf nv → nPdfOf field pdf ≠ nNormOf nv →
      sourceConfidenceForField field csv pdf nv = 0.40)
  ∧ (truthyOS (nCsvOf field csv) = true → truthyOS (nPdfOf field pdf) = false →
      nCsvOf field csv = nNormOf nv →
      sourceConfidenceForField field csv pdf nv = 0.88)
  ∧ (truthyOS (nCsvOf field csv) = true → truthyOS (nPdfOf field pdf) = false →
      nCsvOf field csv ≠ nNormOf nv →
      sourceConfidenceForField field csv pdf nv = 0.80)
  ∧ (truthyOS (nCsvOf field csv) = false → truthyOS (nPdfOf field pdf) = true →
      nPdfOf field pdf = nNormOf nv →
      sourceConfidenceForField field csv pdf nv = 0.75)
  ∧ (truthyOS (nCsvOf field csv) = false → truthyOS (nPdfOf field pdf) = true →
      nPdfOf field pdf ≠ nNormOf nv →
      sourceConfidenceForField field csv pdf nv = 0.60)
  ∧ (truthyOS (nCsvOf field csv) = false → truthyOS (nPdfOf field pdf) = false →
      sourceConfidenceForField field csv pdf nv = 0.0) := by
  refine ⟨?_, ?_, ?_, ?_, ?_, ?_, ?_, ?_⟩
  · intro hC hP hEq
    simp only [sourceConfidenceForField]
    rw [if_pos ⟨hC, hP⟩, if_pos hEq]
  · intro hC hP hNe hOr
    simp only [sourceConfidenceForField]
    rw [if_pos ⟨hC, hP⟩, if_neg hNe, if_pos hOr]
  · intro hC hP hNe h1 h2
    simp only [sourceConfidenceForField]
    rw [if_pos ⟨hC, hP⟩, if_neg hNe, if_neg (by rintro (h | h) <;> [exact h1 h; exact h2 h])]
  · intro hC hP hEq
    simp only [sourceConfidenceForField]
    rw [if_neg (by simp [hP]), if_pos ⟨hC, hP⟩, if_pos hEq]
  · intro hC hP hNe
    simp only [sourceConfidenceForField]
    rw [if_neg (by simp [hP]), if_pos ⟨hC, hP⟩, if_neg hNe]
  · intro hC hP hEq
    simp only [sourceConfidenceForField]
    rw [if_neg (by simp [hC]), if_neg (by simp [hC]), if_pos ⟨hP, hC⟩, if_pos hEq]
  · intro hC hP hNe
    simp only [sourceConfidenceForField]
    rw [if_neg (by simp [hC]), if_neg (by simp [hC]), if_pos ⟨hP, hC⟩, if_neg hNe]
  · intro hC hP
    simp only [sourceConfidenceForField]
    rw [if_neg (by simp [hC]), if_neg (by simp [hC]), if_neg (by simp [hP])]

/-- Witness for C5: both sources present for `"phone"` and, after
trim/lowercase, equal — the estimator returns 0.95. -/
theorem sourceConfidence_cases_witness :
    sourceConfidenceForField "phone" (some [("phone", some " X ")])
      (some [("phone", some "x")]) "x" = 0.95 :=
  (sourceConfidence_cases "phone" (some [("phone", some " X ")])
      (some [("phone", some "x")]) "x").1 (by decide) (by decide) (by decide)

/-- Counterexample to C6 as stated: on Scenario A the estimator does not
return 0.95 — its comparison is `strip().lower()` equality of the raw
values, which does not strip phone formatting, so `"9876543210"` and
`"+91-9876543210"` are unequal there. -/
theorem sourceConfidence_scenarioA_counterexample :
    sourceConfidenceForField "phone" scenarioACsv scenarioAPdf
      (normalizePhone "9876543210") ≠ 0.95 := by
  have hC : truthyOS (nCsvOf "phone" scenarioACsv) = true := by decide
  have hP : truthyOS (nPdfOf "phone" scenarioAPdf) = true := by decide
  have hNe : ¬ (nCsvOf "phone" scenarioACsv = nPdfOf "phone" scenarioAPdf) := by decide
  have hEq : nCsvOf "phone" scenarioACsv = nNormOf (normalizePhone "9876543210") := by
    decide
  simp only [sourceConfidenceForField]
  rw [if_pos ⟨hC, hP⟩, if_neg hNe, if_pos (Or.inl hEq)]
  norm_num

/-- C6 (amended): on Scenario A the estimator returns 0.85, the
partial-trust branch — both sources present and unequal after
trim/lowercase, but the submitted value equals the normalized phone. -/
theorem sourceConfidence_scenarioA_value :
    sourceConfidenceForField "phone" scenarioACsv scenarioAPdf
      (normalizePhone "9876543210") = 0.85 := by
  have hC : truthyOS (nCsvOf "phone" scenarioACsv) = true := by decide
  have hP : truthyOS (nPdfOf "phone" scenarioAPdf) = true := by decide
  have hNe : ¬ (nCsvOf "phone" scenarioACsv = nPdfOf "phone" scenarioAPdf) := by decide
  have hEq : nCsvOf "phone" scenarioACsv = nNormOf (normalizePhone "9876543210") := by
    decide
  simp only [sourceConfidenceForField]
  rw [if_pos ⟨hC, hP⟩, if_neg hNe, if_pos (Or.inl hEq)]

theorem clamp01_nonneg (q : ℚ) : 0 ≤ clamp01 q := le_max_left 0 _

theorem clamp01_le_one (q : ℚ) : clamp01 q ≤ 1 :=
  max_le (by norm_num) (min_le_left 1 q)

theorem clamp01_zero : clamp01 0 = 0 := by
  unfold clamp01
  rw [min_eq_right (by norm_num : (0:ℚ) ≤ 1), max_self]

theorem roundHalfEven_intCast (n : ℤ) : roundHalfEven (n : ℚ) = n := by
  unfold roundHalfEven
  simp only [Int.floor_intCast, sub_self]
  norm_num

theorem roundHalfEven_nonneg (x : ℚ) (hx : 0 ≤ x) : 0 ≤ roundHalfEven x := by
  have h0 : (0 : ℤ) ≤ ⌊x⌋ := Int.floor_nonneg.mpr hx
  unfold roundHalfEven
  split_ifs with h1 h2 h3
  · exact h0
  · omega
  · exact h0
  · omega

theorem roundHalfEven_le_of_le_int (x : ℚ) (m : ℤ) (hx : x ≤ m) :
    roundHalfEven x ≤ m := by
  have hfl : ⌊x⌋ ≤ m := by
    have h := Int.floor_mono hx
    rwa [Int.floor_intCast] at h
  have hfloor_le : (⌊x⌋ : ℚ) ≤ x := Int.floor_le x
  have hplus : ¬ (x - ⌊x⌋ < 1/2) → ⌊x⌋ + 1 ≤ m := by
    intro h1
    have h6 : (1:ℚ)/2 ≤ x - ⌊x⌋ := not_lt.mp h1
    by_contra hlt
    have h7 : m ≤ ⌊x⌋ := by omega
    have h8 : (m : ℚ) ≤ (⌊x⌋ : ℚ) := by exact_mod_cast h7
    linarith
  unfold roundHalfEven
  split_ifs with h1 h2 h3
  · exact hfl
  · exact hplus h1
  · exact hfl
  · exact hplus h1

theorem pyRound3_nonneg (q : ℚ) (hq : 0 ≤ q) : 0 ≤ pyRound3 q := by
  unfold pyRound3
  have h := roundHalfEven_nonneg (q * 1000) (by positivity)
  have hc : (0 : ℚ) ≤ (roundHalfEven (q * 1000) : ℚ) := by exact_mod_cast h
  exact div_nonneg hc (by norm_num)

theorem pyRound3_le_one (q : ℚ) (hq : q ≤ 1) : pyRound3 q ≤ 1 := by
  unfold pyRound3
  have h : roundHalfEven (q * 1000) ≤ (1000 : ℤ) :=
    roundHalfEven_le_of_le_int _ _ (by push_cast; linarith)
  rw [div_le_one (by norm_num : (0:ℚ) < 1000)]
  exact_mod_cast h

theorem mem_missing_combineFieldsList (wS wF : ℚ) (fmt src : String → ℚ)
    (l : List String) (f : String) :
    f ∈ (combineFieldsList wS wF fmt src l).missing_fields ↔
      f ∈ l ∧ fmt f = 0 ∧ src f = 0 := by
  induction l with
  | nil => simp [combineFieldsList]
  | cons g rest ih =>
    simp only [combineFieldsList, List.mem_append, ih, List.mem_cons]
    constructor
    · rintro (hmem | ⟨hmem, h1, h2⟩)
      · by_cases hcond : clamp01 (wS * src g + wF * fmt g) < 0.5 ∧ src g = 0 ∧ fmt g = 0
        · rw [if_pos hcond] at hmem
          rw [List.mem_singleton] at hmem
          subst hmem
          exact ⟨Or.inl rfl, hcond.2.2, hcond.2.1⟩
        · rw [if_neg hcond] at hmem
          cases hmem
      · exact ⟨Or.inr hmem, h1, h2⟩
    · rintro ⟨hfg | hmem, h1, h2⟩
      · subst hfg
        left
        have hcond : clamp01 (wS * src f + wF * fmt f) < 0.5 ∧ src f = 0 ∧ fmt f = 0 := by
          refine ⟨?_, h2, h1⟩
          rw [h2, h1, mul_zero, mul_zero, add_zero, clamp01_zero]
          norm_num
        rw [if_pos hcond, List.mem_singleton]
      · exact Or.inr ⟨hmem, h1, h2⟩

theorem fieldConf_keys (wS wF : ℚ) (fmt src : String → ℚ) (l : List String) :
    (combineFieldsList wS wF fmt src l).field_confidence.map (fun p => p.1) = l := by
  induction l with
  | nil => rfl
  | cons g rest ih => simp only [combineFieldsList, List.map_cons, ih]

theorem mem_fieldConf_combineFieldsList (wS wF : ℚ) (fmt src : String → ℚ)
    (l : List String) (f : String) (q : ℚ)
    (h : (f, q) ∈ (combineFieldsList wS wF fmt src l).field_confidence) :
    ∃ g, q = pyRound3 (clamp01 (wS * src g + wF * fmt g)) := by
  induction l with
  | nil => cases h
  | cons g rest ih =>
    simp only [combineFieldsList, List.mem_cons, Prod.mk.injEq] at h
    rcases h with ⟨_, hq⟩ | hmem
    · exact ⟨g, hq⟩
    · exact ih hmem

theorem totalWeight_eq : totalWeight = 0.95 := by
  norm_num [totalWeight, weightMap, List.map_cons, List.map_nil, List.sum_cons,
    List.sum_nil]

theorem overallConfidence_eq (fc : List (String × ℚ)) :
    overallConfidence fc =
      (fieldConfGet fc "name" * 0.25 + fieldConfGet fc "phone" * 0.2
        + fieldConfGet fc "email" * 0.15 + fieldConfGet fc "address" * 0.2
        + fieldConfGet fc "registration" * 0.1
        + fieldConfGet fc "qualifications" * 0.05) / totalWeight := by
  have ht : (0:ℚ) < totalWeight := by rw [totalWeight_eq]; norm_num
  simp only [overallConfidence, weightMap, List.map_cons, List.map_nil,
    List.sum_cons, List.sum_nil, if_pos ht]
  ring_nf

theorem fieldConfGet_bounds :
    ∀ fc : List (String × ℚ), (∀ p ∈ fc, 0 ≤ p.2 ∧ p.2 ≤ 1) →
      ∀ k, 0 ≤ fieldConfGet fc k ∧ fieldConfGet fc k ≤ 1 := by
  intro fc
  induction fc with
  | nil =>
    intro _ k
    norm_num [fieldConfGet, ratLookup]
  | cons p rest ih =>
    intro h k
    obtain ⟨k1, v1⟩ := p
    by_cases hk : k1 = k
    · simp only [fieldConfGet, ratLookup, if_pos hk, Option.getD_some]
      exact h (k1, v1) (List.mem_cons_self _ _)
    · simp only [fieldConfGet, ratLookup, if_neg hk]
      exact ih (fun q hq => h q (List.mem_cons_of_mem _ hq)) k

/-- C4: a field joins `missing_fields` exactly when both its format
confidence and its source confidence are 0 — for any combiner weights,
because two zero components force the blended score to `clamp01 0 = 0`,
below the 0.5 flagging threshold. -/
theorem missing_iff_both_zero (wS wF : ℚ) (fmt src : String → ℚ) (f : String) :
    f ∈ (combineFields wS wF fmt src).missing_fields ↔
      f ∈ validationFields ∧ fmt f = 0 ∧ src f = 0 := by
  unfold combineFields
  exact mem_missing_combineFieldsList wS wF fmt src validationFields f

/-- Witness for C4: with both scores 0 for every field, `"name"` lands in
`missing_fields`. -/
theorem missing_iff_both_zero_witness :
    "name" ∈ (combineFields 0.5 0.5 (fun _ => 0) (fun _ => 0)).missing_fields :=
  (missing_iff_both_zero 0.5 0.5 (fun _ => 0) (fun _ => 0) "name").mpr
    ⟨by decide, rfl, rfl⟩

/-- Counterexample to C7 as stated: the fixed weight table sums to 0.95,
not 1.0. -/
theorem weights_sum_counterexample : totalWeight = 0.95 ∧ totalWeight ≠ 1 := by
  constructor
  · exact totalWeight_eq
  · rw [totalWeight_eq]
    norm_num

/-- C7 (amended): `overall_confidence` is the weighted mean over the fixed
table name 0.25, phone 0.20, email 0.15, address 0.20, registration 0.10,
qualifications 0.05, whose weights sum to 0.95 (not 1.0); the denominator is
that fixed sum, never renormalized; `specializations` and
`experience_years` carry no weight (their entries do not change the scalar)
yet always appear in `field_confidence`; and a field absent from
`field_confidence` contributes 0 to the numerator. -/
theorem overall_confidence_weighted_mean :
    totalWeight = 0.95
  ∧ (∀ fc, overallConfidence fc =
      (fieldConfGet fc "name" * 0.25 + fieldConfGet fc "phone" * 0.2
        + fieldConfGet fc "email" * 0.15 + fieldConfGet fc "address" * 0.2
        + fieldConfGet fc "registration" * 0.1
        + fieldConfGet fc "qualifications" * 0.05) / totalWeight)
  ∧ (∀ fc v, overallConfidence (("specializations", v) :: fc) = overallConfidence fc)
  ∧ (∀ fc v, overallConfidence (("experience_years", v) :: fc) = overallConfidence fc)
  ∧ (∀ fc k, (∀ p ∈ fc, p.1 ≠ k) → fieldConfGet fc k = 0)
  ∧ (∀ wS wF fmt src,
      "specializations" ∈ (combineFields wS wF fmt src).field_confidence.map (fun p => p.1)
      ∧ "experience_years" ∈ (combineFields wS wF fmt src).field_confidence.map (fun p => p.1)) := by
  refine ⟨totalWeight_eq, overallConfidence_eq, ?_, ?_, ?_, ?_⟩
  · intro fc v
    rw [overallConfidence_eq, overallConfidence_eq]
    simp [fieldConfGet, ratLookup]
  · intro fc v
    rw [overallConfidence_eq, overallConfidence_eq]
    simp [fieldConfGet, ratLookup]
  · intro fc
    induction fc with
    | nil =>
      intro k _
      rfl
    | cons p rest ih =>
      intro k h
      obtain ⟨k1, v1⟩ := p
      have hne : k1 ≠ k := h (k1, v1) (List.mem_cons_self _ _)
      simp only [fieldConfGet, ratLookup, if_neg hne]
      exact ih k (fun q hq => h q (List.mem_cons_of_mem _ hq))
  · intro wS wF fmt src
    unfold combineFields
    rw [fieldConf_keys]
    exact ⟨by decide, by decide⟩

/-- Witness for C7: a `field_confidence` table that lacks the `"phone"` key
contributes 0 for it. -/
theorem overall_confidence_weighted_mean_witness :
    fieldConfGet [("name", (1:ℚ))] "phone" = 0 :=
  overall_confidence_weighted_mean.2.2.2.2.1 [("name", (1:ℚ))] "phone"
    (by
      intro p hp
      rw [List.mem_singleton] at hp
      subst hp
      decide)

/-- Counterexample to C8 as stated: `combined_confidence` is not clamped
below — `round(min(1.0, ...), 3)` caps only from above, so a negative
component score drives it negative. -/
theorem enrichCombined_negative_counterexample :
    enrichCombined .none .none (-2) 0.4 0.35 0.25 = -0.5 ∧
      enrichCombined .none .none (-2) 0.4 0.35 0.25 < 0 := by
  have hval : enrichCombined .none .none (-2) 0.4 0.35 0.25 = -0.5 := by
    unfold enrichCombined
    have hm : pyMatchScore PyVal.none "match_confidence" = 0 := rfl
    have hm2 : pyMatchScore PyVal.none "match_score" = 0 := rfl
    rw [hm, hm2]
    have harith : (0.4:ℚ) * 0 + 0.35 * 0 + 0.25 * (-2) = -0.5 := by norm_num
    rw [harith]
    have hmin : min (1:ℚ) (-0.5) = -0.5 := by
      rw [min_eq_right]
      norm_num
    rw [hmin]
    unfold pyRound3
    have hmul : (-0.5:ℚ) * 1000 = ((-500 : ℤ) : ℚ) := by norm_num
    rw [hmul, roundHalfEven_intCast]
    norm_num
  refine ⟨hval, ?_⟩
  rw [hval]
  norm_num

/-- C8 (amended): `field_confidence` is clamped into [0,1] for every weight
configuration and every score input; `overall_confidence` lies in [0,1]
whenever the per-field confidences do; `combined_confidence` is always
capped at 1, and is nonnegative provided the enrichment weights and the
three component scores are nonnegative (the code clamps it only from
above). -/
theorem confidence_clamping :
    (∀ q, 0 ≤ clamp01 q ∧ clamp01 q ≤ 1)
  ∧ (∀ wS wF fmt src f q,
      (f, q) ∈ (combineFields wS wF fmt src).field_confidence → 0 ≤ q ∧ q ≤ 1)
  ∧ (∀ fc, (∀ p ∈ fc, 0 ≤ p.2 ∧ p.2 ≤ 1) →
      0 ≤ overallConfidence fc ∧ overallConfidence fc ≤ 1)
  ∧ (∀ npiR mapsR ss wN wM wS,
      enrichCombined npiR mapsR ss wN wM wS ≤ 1)
  ∧ (∀ npiR mapsR ss wN wM wS, 0 ≤ wN → 0 ≤ wM → 0 ≤ wS →
      0 ≤ pyMatchScore npiR "match_confidence" →
      0 ≤ pyMatchScore mapsR "match_score" → 0 ≤ ss →
      0 ≤ enrichCombined npiR mapsR ss wN wM wS) := by
  refine ⟨fun q => ⟨clamp01_nonneg q, clamp01_le_one q⟩, ?_, ?_, ?_, ?_⟩
  · intro wS wF fmt src f q hmem
    obtain ⟨g, hg⟩ := mem_fieldConf_combineFieldsList wS wF fmt src _ f q hmem
    subst hg
    exact ⟨pyRound3_nonneg _ (clamp01_nonneg _), pyRound3_le_one _ (clamp01_le_one _)⟩
  · intro fc h
    have hn := fieldConfGet_bounds fc h "name"
    have hp := fieldConfGet_bounds fc h "phone"
    have he := fieldConfGet_bounds fc h "email"
    have ha := fieldConfGet_bounds fc h "address"
    have hr := fieldConfGet_bounds fc h "registration"
    have hq := fieldConfGet_bounds fc h "qualifications"
    rw [overallConfidence_eq, totalWeight_eq]
    constructor
    · apply div_nonneg _ (by norm_num)
      nlinarith [hn.1, hp.1, he.1, ha.1, hr.1, hq.1]
    · rw [div_le_one (by norm_num : (0:ℚ) < 0.95)]
      nlinarith [hn.2, hp.2, he.2, ha.2, hr.2, hq.2]
  · intro npiR mapsR ss wN wM wS
    exact pyRound3_le_one _ (min_le_left 1 _)
  · intro npiR mapsR ss wN wM wS h1 h2 h3 h4 h5 h6
    apply pyRound3_nonneg
    apply le_min (by norm_num)
    have := mul_nonneg h1 h4
    have := mul_nonneg h2 h5
    have := mul_nonneg h3 h6
    linarith

/-- Witness for C8: the empty field-confidence table and all-zero component
scores with the default weights stay inside [0,1]. -/
theorem confidence_clamping_witness :
    (0 ≤ overallConfidence [] ∧ overallConfidence [] ≤ 1) ∧
      0 ≤ enrichCombined PyVal.none PyVal.none 0 0.4 0.35 0.25 :=
  ⟨confidence_clamping.2.2.1 [] (by intro p hp; cases hp),
   confidence_clamping.2.2.2.2 PyVal.none PyVal.none 0 0.4 0.35 0.25
     (by norm_num) (by norm_num) (by norm_num) (le_of_eq rfl) (le_of_eq rfl)
     (le_refl 0)⟩

/-- C10: an absent store file, or content the JSON parser rejects (empty
content included — the empty string is not valid JSON), makes both store
loaders return the empty mapping; neither loader propagates the failure. -/
theorem load_corrupt_store_resets (parse : String → Option PyVal)
    (content : Option String)
    (h : content = Option.none ∨ ∀ s, content = some s → parse s = Option.none) :
    loadJson parse content = .dict [] ∧ loadExisting parse content = .dict [] := by
  cases content with
  | none => exact ⟨rfl, rfl⟩
  | some s =>
    have hp : parse s = Option.none := by
      rcases h with h | h
      · cases h
      · exact h s rfl
    constructor
    · simp [loadJson, hp]
    · simp [loadExisting, hp]

/-- Witness for C10: a parser that rejects everything (as `json.load` does
on corrupt text) makes both loaders return the empty store. -/
theorem load_corrupt_store_resets_witness :
    loadJson (fun _ => Option.none) (some "\x7bcorrupt") = .dict [] ∧
      loadExisting (fun _ => Option.none) (some "\x7bcorrupt") = .dict [] :=
  load_corrupt_store_resets (fun _ => Option.none) (some "\x7bcorrupt")
    (Or.inr (fun _ _ => rfl))

/-- C3: the License Validity Checker evaluates its rules in precedence
order — any absent field gives INCOMPLETE; else a non-ACTIVE status
(case-insensitive) gives INVALID_STATUS; else an expiry that does not parse
in the fixed "Month DD, YYYY" format gives EXPIRED and can never give
VALID; else a parsed expiry strictly before the current date gives EXPIRED;
else VALID. -/
theorem checkLicense_cases (lic : LicenseRecord) (today : SimpleDate) :
    ((lic.registrationNumber = Option.none ∨ lic.status = Option.none ∨
        lic.issueDate = Option.none ∨ lic.expiryDate = Option.none) →
      checkLicense lic today = .INCOMPLETE)
  ∧ (∀ rn st iss ed, lic = ⟨some rn, some st, some iss, some ed⟩ →
      pyStrUpper st ≠ "ACTIVE" →
      checkLicense lic today = .INVALID_STATUS)
  ∧ (∀ rn st iss ed, lic = ⟨some rn, some st, some iss, some ed⟩ →
      pyStrUpper st = "ACTIVE" → parseLicenseDate ed = Option.none →
      checkLicense lic today = .EXPIRED)
  ∧ (∀ rn st iss ed d, lic = ⟨some rn, some st, some iss, some ed⟩ →
      pyStrUpper st = "ACTIVE" → parseLicenseDate ed = some d →
      dateBefore d today = true →
      checkLicense lic today = .EXPIRED)
  ∧ (∀ rn st iss ed d, lic = ⟨some rn, some st, some iss, some ed⟩ →
      pyStrUpper st = "ACTIVE" → parseLicenseDate ed = some d →
      dateBefore d today = false →
      checkLicense lic today = .VALID)
  ∧ (∀ ed, lic.expiryDate = some ed → parseLicenseDate ed = Option.none →
      checkLicense lic today ≠ .VALID) := by
  obtain ⟨rn, st, iss, ed0⟩ := lic
  refine ⟨?_, ?_, ?_, ?_, ?_, ?_⟩
  · rintro (h | h | h | h)
    all_goals simp only at h
    all_goals subst h
    · rfl
    · cases rn <;> rfl
    · cases rn <;> cases st <;> rfl
    · cases rn <;> cases st <;> cases iss <;> rfl
  · intro rn1 st1 iss1 ed1 hlic hst
    cases hlic
    simp only [checkLicense]
    rw [if_pos hst]
  · intro rn1 st1 iss1 ed1 hlic hst hparse
    cases hlic
    simp only [checkLicense]
    rw [if_neg (by simp [hst]), hparse]
  · intro rn1 st1 iss1 ed1 d hlic hst hparse hbefore
    cases hlic
    simp only [checkLicense]
    rw [if_neg (by simp [hst]), hparse]
    simp [hbefore]
  · intro rn1 st1 iss1 ed1 d hlic hst hparse hbefore
    cases hlic
    simp only [checkLicense]
    rw [if_neg (by simp [hst]), hparse]
    simp [hbefore]
  · intro ed hed hparse
    simp only at hed
    subst hed
    cases rn with
    | none => exact fun hc => LicenseState.noConfusion hc
    | some rn1 =>
      cases st with
      | none => exact fun hc => LicenseState.noConfusion hc
      | some st1 =>
        cases iss with
        | none => exact fun hc => LicenseState.noConfusion hc
        | some iss1 =>
          simp only [checkLicense]
          by_cases hstA : pyStrUpper st1 ≠ "ACTIVE"
          · rw [if_pos hstA]
            exact fun hc => LicenseState.noConfusion hc
          · rw [if_neg hstA, hparse]
            exact fun hc => LicenseState.noConfusion hc

/-- Witness for C3: the abbreviated expiry date fails to parse, so the
checker returns EXPIRED although the status is ACTIVE. -/
theorem checkLicense_cases_witness :
    checkLicense licenseUnparsableExpiry ⟨2025, 10, 12⟩ = .EXPIRED :=
  (checkLicense_cases licenseUnparsableExpiry ⟨2025, 10, 12⟩).2.2.1
    "REG-1" "ACTIVE" "March 3, 2015" "Jan 1, 2020" rfl (by decide) (by decide)

end EYPipeline
